import Mathlib

/-!
Verification development for the Smart-Blog-Editor auto-save subsystem.

The embedding models the two core source files:

* `src/frontend/src/hooks/useAutoSave.js` — the save coordinator
  (`saveContent` with its queue, retry counter, in-flight flag, and the
  effects of the surrounding hook), embedded as an explicit event-driven
  state machine.  JavaScript's single-threaded event loop is modelled by a
  `step` function over environment-chosen events: submissions, API
  completions (success/failure), backoff-timer expiry, retry-timer expiry,
  post switches, and unmount.  An `async` body runs synchronously up to its
  first `await`; each `await` is a suspension recorded in the state
  (`inFlight`) and resumed by the corresponding event.

* `src/frontend/src/utils/debounce.js` — the debounce primitive, embedded
  with an explicit clock: `timeoutId` holds the pending timer's absolute
  deadline and captured arguments, and every entry point first fires a
  timer that has already come due (`advanceTo`), as the real event loop
  would have.
-/

namespace SmartBlog

/-- A content value submitted to `saveContent`.  `pid` models the optional
`postId` field of the payload (`none` stands for a field that is absent or
falsy, which is how the JavaScript truthiness test treats it); `data`
models all remaining fields of the object. -/
structure Content (α : Type) where
  pid : Option String
  data : α
  deriving Repr, DecidableEq

/-- The status values of the hook: `idle | saving | saved | retrying |
error`. -/
inductive SaveStatus
  | idle | saving | saved | retrying | error
  deriving Repr, DecidableEq

/-- A suspension point of one execution of the `saveContent` body: either
awaiting the exponential-backoff sleep (with the computed delay in
milliseconds) or awaiting the `postsAPI.update` response.  `p` is the
`postId` captured by the closure that is executing. -/
inductive Susp (α : Type)
  | backoff (p : String) (c : Content α) (delayMs : Nat)
  | apiCall (p : String) (c : Content α)
  deriving Repr, DecidableEq

/-- A pending `setTimeout(() => saveContent(contentToSave), 1000)` retry
timer.  `pid` is the `postId` captured by the scheduling closure. -/
structure RetryTimer (α : Type) where
  pid : Option String
  c : Content α
  delayMs : Nat
  deriving Repr, DecidableEq

/-- One invocation of `postsAPI.update(postId, contentForAPI)`.  `target`
is the `postId` argument, `body` the content object actually sent (with
the `postId` field already stripped), and `srcPid` records the `postId`
field the submitted content carried, for stating identity properties. -/
structure ApiRecord (α : Type) where
  target : String
  body : α
  srcPid : Option String
  deriving Repr, DecidableEq

/-- The state of the `useAutoSave` hook: its React refs (`isSaving`,
`saveQueue`, `retryCount`, `isMounted`), its state cells (`status`,
`errorMsg`, `lastSaved` — modelled as a counter of `setLastSaved`
timestamps), the currently bound `postId` prop, plus the pending
asynchronous work (`inFlight` suspensions, `retryTimers`) and the log of
persistence calls made so far (`apiLog`). -/
structure AState (α : Type) where
  postId : Option String
  isSaving : Bool
  saveQueue : List (Content α)
  retryCount : Nat
  status : SaveStatus
  errorMsg : Option String
  lastSaved : Nat
  isMounted : Bool
  inFlight : List (Susp α)
  retryTimers : List (RetryTimer α)
  apiLog : List (ApiRecord α)
  deriving Repr, DecidableEq

/-- `const maxRetries = 3` from the hook. -/
def maxRetries : Nat := 3

/-- Models `const { postId: _, ...contentForAPI } = contentToSave || {}`:
the body sent to the API is the content minus its `postId` field. -/
def contentForAPI {α : Type} (c : Content α) : α := c.data

/-- The condition `contentToSave?.postId && contentToSave.postId !==
postId` of the cross-post guard: true when the payload carries a truthy
`postId` that differs from the bound one. -/
def pidMismatch {α : Type} (c : Content α) (p : String) : Bool :=
  match c.pid with
  | none => false
  | some q => q != p

/-- The synchronous prefix of one call of `saveContent(contentToSave)`
with closure-captured `postId = pid`, up to its first `await`:

* `if (!postId || isSaving.current) { saveQueue.current.push(...); return }`
* the cross-post guard (discard on mismatch),
* `isSaving.current = true; setStatus('saving'); setError(null)`,
* then suspend at the backoff sleep when `retryCount.current > 0`
  (with `backoffDelay = Math.pow(2, retryCount.current) * 1000`), else
  call `postsAPI.update` at once and suspend awaiting its response. -/
def saveContent {α : Type} (pid : Option String) (c : Content α) (s : AState α) :
    AState α :=
  match pid with
  | none => { s with saveQueue := s.saveQueue ++ [c] }
  | some p =>
    if s.isSaving then { s with saveQueue := s.saveQueue ++ [c] }
    else if pidMismatch c p then s
    else
      let s1 := { s with isSaving := true, status := SaveStatus.saving,
                         errorMsg := none }
      if 0 < s1.retryCount then
        { s1 with inFlight :=
            s1.inFlight ++ [Susp.backoff p c (2 ^ s1.retryCount * 1000)] }
      else
        { s1 with inFlight := s1.inFlight ++ [Susp.apiCall p c],
                  apiLog := s1.apiLog ++ [⟨p, contentForAPI c, c.pid⟩] }

/-- The `finally` block of `saveContent`: clear `isSaving`, and when the
queue is non-empty, `pop()` its last element, clear the queue, and
synchronously re-enter `saveContent` (same closure, so the same captured
`postId = p`). -/
def finallyDrain {α : Type} (p : String) (s : AState α) : AState α :=
  let s1 := { s with isSaving := false }
  match s1.saveQueue.getLast? with
  | none => s1
  | some next => saveContent (some p) next { s1 with saveQueue := [] }

/-- Resumption of a `saveContent` execution whose `postsAPI.update` call
resolved successfully: the `try` tail (status `saved`, record the
timestamp, reset `retryCount` — all guarded by `isMounted`) followed by
the `finally` block. -/
def apiSuccess {α : Type} (s : AState α) : AState α :=
  match s.inFlight with
  | Susp.apiCall p _ :: rest =>
    let s1 := { s with inFlight := rest }
    let s2 :=
      if s1.isMounted then
        { s1 with status := SaveStatus.saved, lastSaved := s1.lastSaved + 1,
                  retryCount := 0 }
      else s1
    finallyDrain p s2
  | _ => s

/-- Resumption of a `saveContent` execution whose `postsAPI.update` call
rejected with cause `msg`: the `catch` block — when `retryCount <
maxRetries`, increment it and (if mounted) set status `retrying` and
schedule `setTimeout(() => saveContent(contentToSave), 1000)`; otherwise
(if mounted) set status `error` with the cause, and reset `retryCount`
unconditionally — followed by the `finally` block. -/
def apiFailure {α : Type} (msg : String) (s : AState α) : AState α :=
  match s.inFlight with
  | Susp.apiCall p c :: rest =>
    let s1 := { s with inFlight := rest }
    let s2 :=
      if s1.retryCount < maxRetries then
        let s3 := { s1 with retryCount := s1.retryCount + 1 }
        if s3.isMounted then
          { s3 with status := SaveStatus.retrying,
                    retryTimers := s3.retryTimers ++ [⟨some p, c, 1000⟩] }
        else s3
      else
        let s3 :=
          if s1.isMounted then
            { s1 with status := SaveStatus.error, errorMsg := some msg }
          else s1
        { s3 with retryCount := 0 }
    finallyDrain p s2
  | _ => s

/-- Expiry of the backoff sleep: the suspended execution resumes, calls
`postsAPI.update(postId, contentForAPI)` and suspends awaiting the
response. -/
def backoffElapsed {α : Type} (s : AState α) : AState α :=
  match s.inFlight with
  | Susp.backoff p c _ :: rest =>
    { s with inFlight := rest ++ [Susp.apiCall p c],
             apiLog := s.apiLog ++ [⟨p, contentForAPI c, c.pid⟩] }
  | _ => s

/-- Expiry of the earliest pending retry timer: its callback invokes
`saveContent(contentToSave)` through the closure that scheduled it. -/
def retryTimerFire {α : Type} (s : AState α) : AState α :=
  match s.retryTimers with
  | [] => s
  | t :: rest => saveContent t.pid t.c { s with retryTimers := rest }

/-- The events the environment (editor, network, timers, React lifecycle)
can deliver to the hook's event loop. -/
inductive AEvent (α : Type)
  | submit (c : Content α)
  | apiOk
  | apiErr (msg : String)
  | backoffDone
  | retryFire
  | switchTo (newPid : Option String)
  | unmount
  deriving Repr

/-- One event-loop step.  `submit c` is a call of the current render's
`saveContent` (closure `postId` = the bound `postId`); `switchTo` models a
change of the `postId` prop, whose effect in the hook is
`saveQueue.current = []` (the queue-clearing `useEffect`); `unmount` sets
`isMounted.current = false` (the cleanup effect). -/
def step {α : Type} (s : AState α) : AEvent α → AState α
  | AEvent.submit c => saveContent s.postId c s
  | AEvent.apiOk => apiSuccess s
  | AEvent.apiErr m => apiFailure m s
  | AEvent.backoffDone => backoffElapsed s
  | AEvent.retryFire => retryTimerFire s
  | AEvent.switchTo np => { s with postId := np, saveQueue := [] }
  | AEvent.unmount => { s with isMounted := false }

/-- Initial hook state for a bound `postId`. -/
def initState {α : Type} (pid : Option String) : AState α :=
  { postId := pid, isSaving := false, saveQueue := [], retryCount := 0,
    status := SaveStatus.idle, errorMsg := none, lastSaved := 0,
    isMounted := true, inFlight := [], retryTimers := [], apiLog := [] }

/-- Run a sequence of events. -/
def run {α : Type} (s : AState α) (es : List (AEvent α)) : AState α :=
  es.foldl step s

/-! ## The debounce primitive (`src/frontend/src/utils/debounce.js`)

The `debounce(func, wait)` closure state: `timeoutId` is `none` when no
timer is pending, and `some (deadline, args)` when a timer scheduled by
the last call is pending, with its absolute expiry time and the captured
arguments.  `fired` logs the executions of `func`, in order, with their
arguments.  Time is an explicit `Nat` clock in milliseconds. -/

/-- State of one debounced closure. -/
structure DebounceState (β : Type) where
  now : Nat
  wait : Nat
  timeoutId : Option (Nat × β)
  fired : List β
  deriving Repr, DecidableEq

/-- Advance the clock to time `t`, firing the pending timer first when its
deadline has come due by then — exactly what the event loop does before
running any code at time `t`. -/
def advanceTo {β : Type} (s : DebounceState β) (t : Nat) : DebounceState β :=
  match s.timeoutId with
  | some (dl, args) =>
    if dl ≤ t then
      { s with now := t, timeoutId := none, fired := s.fired ++ [args] }
    else { s with now := t }
  | none => { s with now := t }

/-- The body of `debounced(...args)`: clear any previous timeout and
schedule `func` with the latest arguments after `wait` milliseconds. -/
def debouncedCall {β : Type} (s : DebounceState β) (args : β) : DebounceState β :=
  { s with timeoutId := some (s.now + s.wait, args) }

/-- The body of `debounced.cancel()`: if a timeout is pending, clear it;
otherwise do nothing. -/
def debouncedCancel {β : Type} (s : DebounceState β) : DebounceState β :=
  match s.timeoutId with
  | none => s
  | some _ => { s with timeoutId := none }

/-- Timed events against a debounced closure: invoke it at time `t` with
arguments, call `cancel()` at time `t`, or simply let time pass to `t`
with no further calls (a quiet period). -/
inductive DEvent (β : Type)
  | invoke (t : Nat) (args : β)
  | cancelAt (t : Nat)
  | quiet (t : Nat)
  deriving Repr

/-- One event against the closure: due timers fire before the event's own
code runs. -/
def dstep {β : Type} (s : DebounceState β) : DEvent β → DebounceState β
  | DEvent.invoke t a => debouncedCall (advanceTo s t) a
  | DEvent.cancelAt t => debouncedCancel (advanceTo s t)
  | DEvent.quiet t => advanceTo s t

/-- A fresh debounced closure with delay `wait`: no pending timer, no
executions yet. -/
def dInit {β : Type} (wait : Nat) : DebounceState β :=
  { now := 0, wait := wait, timeoutId := none, fired := [] }

/-- Run a sequence of timed events against a debounced closure. -/
def drun {β : Type} (s : DebounceState β) (es : List (DEvent β)) : DebounceState β :=
  es.foldl dstep s

/-! ## Basic run lemmas -/

theorem run_cons {α : Type} (s : AState α) (e : AEvent α) (es : List (AEvent α)) :
    run s (e :: es) = run (step s e) es := rfl

theorem run_append {α : Type} (s : AState α) (es es' : List (AEvent α)) :
    run s (es ++ es') = run (run s es) es' := by
  simp [run, List.foldl_append]

/-- A `saveContent` call made while a save is in flight only pushes onto
the queue, whatever the bound `postId` is. -/
theorem saveContent_of_isSaving {α : Type} (pid : Option String) (c : Content α)
    (s : AState α) (h : s.isSaving = true) :
    saveContent pid c s = { s with saveQueue := s.saveQueue ++ [c] } := by
  cases pid with
  | none => rfl
  | some p => simp [saveContent, h]

/-- Submissions arriving while a save is in flight accumulate on the queue
in order; nothing else in the state changes. -/
theorem run_submits_while_saving {α : Type} (pid : String) (ds : List α) :
    ∀ s : AState α, s.isSaving = true →
      run s (ds.map fun d => AEvent.submit ⟨some pid, d⟩) =
        { s with saveQueue :=
            s.saveQueue ++ ds.map fun d => (⟨some pid, d⟩ : Content α) } := by
  induction ds with
  | nil => intro s _; simp [run]
  | cons d rest ih =>
    intro s h
    rw [List.map_cons, run_cons]
    show run (saveContent s.postId ⟨some pid, d⟩ s) _ = _
    rw [saveContent_of_isSaving _ _ _ h]
    rw [ih _ (by simp [h])]
    simp

/-- Neither `saveContent` itself nor the queue drain touches the retry
counter (only the API-response handlers do). -/
theorem saveContent_retryCount {α : Type} (pid : Option String) (c : Content α)
    (s : AState α) : (saveContent pid c s).retryCount = s.retryCount := by
  cases pid with
  | none => rfl
  | some p =>
    by_cases h : s.isSaving = true
    · simp [saveContent, h]
    · by_cases hm : pidMismatch c p = true
      · simp [saveContent, h, hm]
      · by_cases hr : 0 < s.retryCount <;>
          simp [saveContent, h, hm, hr]

theorem finallyDrain_retryCount {α : Type} (p : String) (s : AState α) :
    (finallyDrain p s).retryCount = s.retryCount := by
  unfold finallyDrain
  cases h : s.saveQueue.getLast? with
  | none => simp [h]
  | some next => simp [h, saveContent_retryCount]

/-! ## C1 — last-write-wins under load -/

/-- C1: submitting `R1, R2, R3` for the same document while `R1` is
executing yields exactly two persistence calls in total — `R1`'s first and
then `R3`'s — and leaves nothing pending; `R2` is never sent. -/
theorem C1_last_write_wins {α : Type} (pid : String) (d1 d2 d3 : α) :
    (run (initState (some pid))
      [AEvent.submit ⟨some pid, d1⟩, AEvent.submit ⟨some pid, d2⟩,
       AEvent.submit ⟨some pid, d3⟩, AEvent.apiOk, AEvent.apiOk]).apiLog
        = [⟨pid, d1, some pid⟩, ⟨pid, d3, some pid⟩]
    ∧ (run (initState (some pid))
      [AEvent.submit ⟨some pid, d1⟩, AEvent.submit ⟨some pid, d2⟩,
       AEvent.submit ⟨some pid, d3⟩, AEvent.apiOk, AEvent.apiOk]).status
        = SaveStatus.saved
    ∧ (run (initState (some pid))
      [AEvent.submit ⟨some pid, d1⟩, AEvent.submit ⟨some pid, d2⟩,
       AEvent.submit ⟨some pid, d3⟩, AEvent.apiOk, AEvent.apiOk]).saveQueue = []
    ∧ (run (initState (some pid))
      [AEvent.submit ⟨some pid, d1⟩, AEvent.submit ⟨some pid, d2⟩,
       AEvent.submit ⟨some pid, d3⟩, AEvent.apiOk, AEvent.apiOk]).inFlight = []
    ∧ (run (initState (some pid))
      [AEvent.submit ⟨some pid, d1⟩, AEvent.submit ⟨some pid, d2⟩,
       AEvent.submit ⟨some pid, d3⟩, AEvent.apiOk, AEvent.apiOk]).retryTimers
        = [] := by
  refine ⟨?_, ?_, ?_, ?_, ?_⟩ <;>
    simp [run, step, saveContent, apiSuccess, finallyDrain, pidMismatch,
          initState, contentForAPI]

/-! ## C4 — retry exhaustion -/

/-- C4: when the persistence call fails on every attempt, the hook makes
exactly `maxRetries + 1 = 4` call attempts, ends in status `error`
carrying the last failure's cause, resets the retry counter to zero, and
has no retry timer, suspension, or queued request left. -/
theorem C4_retry_exhaustion {α : Type} (pid : String) (d : α)
    (e1 e2 e3 e4 : String) :
    (run (initState (some pid))
      [AEvent.submit ⟨some pid, d⟩, AEvent.apiErr e1, AEvent.retryFire,
       AEvent.backoffDone, AEvent.apiErr e2, AEvent.retryFire,
       AEvent.backoffDone, AEvent.apiErr e3, AEvent.retryFire,
       AEvent.backoffDone, AEvent.apiErr e4]).apiLog
        = List.replicate (maxRetries + 1) ⟨pid, d, some pid⟩
    ∧ (run (initState (some pid))
      [AEvent.submit ⟨some pid, d⟩, AEvent.apiErr e1, AEvent.retryFire,
       AEvent.backoffDone, AEvent.apiErr e2, AEvent.retryFire,
       AEvent.backoffDone, AEvent.apiErr e3, AEvent.retryFire,
       AEvent.backoffDone, AEvent.apiErr e4]).status = SaveStatus.error
    ∧ (run (initState (some pid))
      [AEvent.submit ⟨some pid, d⟩, AEvent.apiErr e1, AEvent.retryFire,
       AEvent.backoffDone, AEvent.apiErr e2, AEvent.retryFire,
       AEvent.backoffDone, AEvent.apiErr e3, AEvent.retryFire,
       AEvent.backoffDone, AEvent.apiErr e4]).errorMsg = some e4
    ∧ (run (initState (some pid))
      [AEvent.submit ⟨some pid, d⟩, AEvent.apiErr e1, AEvent.retryFire,
       AEvent.backoffDone, AEvent.apiErr e2, AEvent.retryFire,
       AEvent.backoffDone, AEvent.apiErr e3, AEvent.retryFire,
       AEvent.backoffDone, AEvent.apiErr e4]).retryCount = 0
    ∧ (run (initState (some pid))
      [AEvent.submit ⟨some pid, d⟩, AEvent.apiErr e1, AEvent.retryFire,
       AEvent.backoffDone, AEvent.apiErr e2, AEvent.retryFire,
       AEvent.backoffDone, AEvent.apiErr e3, AEvent.retryFire,
       AEvent.backoffDone, AEvent.apiErr e4]).retryTimers = []
    ∧ (run (initState (some pid))
      [AEvent.submit ⟨some pid, d⟩, AEvent.apiErr e1, AEvent.retryFire,
       AEvent.backoffDone, AEvent.apiErr e2, AEvent.retryFire,
       AEvent.backoffDone, AEvent.apiErr e3, AEvent.retryFire,
       AEvent.backoffDone, AEvent.apiErr e4]).inFlight = [] := by
  refine ⟨?_, ?_, ?_, ?_, ?_, ?_⟩ <;>
    simp [run, step, saveContent, apiFailure, retryTimerFire, backoffElapsed,
          finallyDrain, pidMismatch, initState, contentForAPI, maxRetries,
          List.replicate]

/-! ## C3 — the pending queue is not a single slot -/

/-- C3 counterexample: two submissions while one save is in flight leave
two entries on `saveQueue` at once — the structure is a growing array, not
a one-slot cell, so the claimed "at most one entry at every instant"
invariant fails. -/
theorem C3_counterexample :
    (run (initState (some "p1"))
      [AEvent.submit ⟨some "p1", "a"⟩, AEvent.submit ⟨some "p1", "b"⟩,
       AEvent.submit ⟨some "p1", "c"⟩]).saveQueue
      = [⟨some "p1", "b"⟩, ⟨some "p1", "c"⟩]
    ∧ ¬ (run (initState (some "p1"))
      [AEvent.submit ⟨some "p1", "a"⟩, AEvent.submit ⟨some "p1", "b"⟩,
       AEvent.submit ⟨some "p1", "c"⟩]).saveQueue.length ≤ 1 := by
  constructor
  · simp [run, step, saveContent, pidMismatch, initState]
  · simp [run, step, saveContent, pidMismatch, initState]

theorem getLast?_map_eq {α β : Type} (f : α → β) (l : List α) :
    (l.map f).getLast? = l.getLast?.map f := by
  induction l with
  | nil => rfl
  | cons a t ih =>
    cases t with
    | nil => rfl
    | cons b t' => simpa using ih

/-- C3 amended: every request received while a save is in flight is
appended to the queue (so it can hold several entries at once), but when
the in-flight save completes, only the most recently received request is
executed and the whole queue is emptied — the older queued entries are
discarded unexecuted, preserving last-write-wins at drain time. -/
theorem C3_amended {α : Type} (pid : String) (d0 dn : α) (ds : List α)
    (h : ds.getLast? = some dn) :
    (run (initState (some pid))
        (AEvent.submit ⟨some pid, d0⟩ ::
          ((ds.map fun d => AEvent.submit ⟨some pid, d⟩) ++ [AEvent.apiOk]))).saveQueue
      = []
    ∧ (run (initState (some pid))
        (AEvent.submit ⟨some pid, d0⟩ ::
          ((ds.map fun d => AEvent.submit ⟨some pid, d⟩) ++ [AEvent.apiOk]))).apiLog
      = [⟨pid, d0, some pid⟩, ⟨pid, dn, some pid⟩] := by
  rw [run_cons, run_append]
  have hstep : step (initState (some pid) : AState α)
      (AEvent.submit ⟨some pid, d0⟩) =
      { initState (some pid) with
          isSaving := true, status := SaveStatus.saving,
          inFlight := [Susp.apiCall pid ⟨some pid, d0⟩],
          apiLog := [⟨pid, d0, some pid⟩] } := by
    simp [step, saveContent, pidMismatch, initState, contentForAPI]
  rw [hstep, run_submits_while_saving pid ds _ rfl]
  have hlast : (ds.map fun d => (⟨some pid, d⟩ : Content α)).getLast?
      = some ⟨some pid, dn⟩ := by
    rw [getLast?_map_eq, h]; rfl
  constructor <;>
    simp [run, step, apiSuccess, finallyDrain, saveContent, pidMismatch,
          initState, contentForAPI, hlast]

theorem C3_amended_witness :
    (run (initState (some "p1"))
        (AEvent.submit ⟨some "p1", "a"⟩ ::
          ((["b", "c"].map fun d => AEvent.submit ⟨some "p1", d⟩)
            ++ [AEvent.apiOk]))).saveQueue = []
    ∧ (run (initState (some "p1"))
        (AEvent.submit ⟨some "p1", "a"⟩ ::
          ((["b", "c"].map fun d => AEvent.submit ⟨some "p1", d⟩)
            ++ [AEvent.apiOk]))).apiLog
      = [⟨"p1", "a", some "p1"⟩, ⟨"p1", "c", some "p1"⟩] :=
  C3_amended "p1" "a" "c" ["b", "c"] rfl

/-! ## C5 — the retry/backoff schedule the code actually implements -/

/-- C5: for a persistence call that fails twice then succeeds, the code
does make exactly 3 call attempts and end in status `saved`, but the
delays it schedules are a fixed 1000 ms retry timer plus a backoff sleep
of `2 ^ retryCount * 1000` ms — 2000 ms before the second attempt and
4000 ms before the third — not the 1 s and 2 s the documentation states.
This theorem pins the schedule the code produces on that input. -/
theorem C5_backoff_schedule :
    ((run (initState (some "p1"))
        [AEvent.submit ⟨some "p1", "x"⟩, AEvent.apiErr "e1"]).retryTimers
      = [⟨some "p1", ⟨some "p1", "x"⟩, 1000⟩])
    ∧ ((run (initState (some "p1"))
        [AEvent.submit ⟨some "p1", "x"⟩, AEvent.apiErr "e1",
         AEvent.retryFire]).inFlight
      = [Susp.backoff "p1" ⟨some "p1", "x"⟩ 2000])
    ∧ ((run (initState (some "p1"))
        [AEvent.submit ⟨some "p1", "x"⟩, AEvent.apiErr "e1", AEvent.retryFire,
         AEvent.backoffDone, AEvent.apiErr "e2"]).retryTimers
      = [⟨some "p1", ⟨some "p1", "x"⟩, 1000⟩])
    ∧ ((run (initState (some "p1"))
        [AEvent.submit ⟨some "p1", "x"⟩, AEvent.apiErr "e1", AEvent.retryFire,
         AEvent.backoffDone, AEvent.apiErr "e2", AEvent.retryFire]).inFlight
      = [Susp.backoff "p1" ⟨some "p1", "x"⟩ 4000])
    ∧ ((run (initState (some "p1"))
        [AEvent.submit ⟨some "p1", "x"⟩, AEvent.apiErr "e1", AEvent.retryFire,
         AEvent.backoffDone, AEvent.apiErr "e2", AEvent.retryFire,
         AEvent.backoffDone, AEvent.apiOk]).status = SaveStatus.saved)
    ∧ ((run (initState (some "p1"))
        [AEvent.submit ⟨some "p1", "x"⟩, AEvent.apiErr "e1", AEvent.retryFire,
         AEvent.backoffDone, AEvent.apiErr "e2", AEvent.retryFire,
         AEvent.backoffDone, AEvent.apiOk]).apiLog.length = 3)
    ∧ ((run (initState (some "p1"))
        [AEvent.submit ⟨some "p1", "x"⟩, AEvent.apiErr "e1", AEvent.retryFire,
         AEvent.backoffDone, AEvent.apiErr "e2", AEvent.retryFire,
         AEvent.backoffDone, AEvent.apiOk]).retryCount = 0) := by
  refine ⟨?_, ?_, ?_, ?_, ?_, ?_, ?_⟩ <;> rfl

/-! ## C2 — in-flight exclusivity, and what happens around retries -/

/-- C2 counterexample: `R1` is submitted and fails; `R2` was queued while
`R1` was executing.  The `finally` drain starts `R2` immediately, so
`R2`'s persistence call executes (second `apiLog` entry) while the 1000 ms
retry timer for `R1` is still scheduled — refuting "while a retry of a
failed request is still scheduled, no queued request begins execution". -/
theorem C2_counterexample :
    ((run (initState (some "p1"))
        [AEvent.submit ⟨some "p1", "x1"⟩, AEvent.submit ⟨some "p1", "x2"⟩,
         AEvent.apiErr "e", AEvent.backoffDone]).retryTimers
      = [⟨some "p1", ⟨some "p1", "x1"⟩, 1000⟩])
    ∧ ((run (initState (some "p1"))
        [AEvent.submit ⟨some "p1", "x1"⟩, AEvent.submit ⟨some "p1", "x2"⟩,
         AEvent.apiErr "e", AEvent.backoffDone]).apiLog
      = [⟨"p1", "x1", some "p1"⟩, ⟨"p1", "x2", some "p1"⟩]) := by
  exact ⟨rfl, rfl⟩

/-! ## C7 — what resets the retry counter -/

/-- C7 counterexample: after one failed attempt the retry counter is 1;
switching the active document to `p2` (the `postId`-change effect) clears
the queue but leaves the retry counter at 1 — it is not reset to zero when
the document identity changes. -/
theorem C7_counterexample :
    ((run (initState (some "p1"))
        [AEvent.submit ⟨some "p1", "x"⟩, AEvent.apiErr "boom",
         AEvent.switchTo (some "p2")]).postId = some "p2")
    ∧ ((run (initState (some "p1"))
        [AEvent.submit ⟨some "p1", "x"⟩, AEvent.apiErr "boom",
         AEvent.switchTo (some "p2")]).retryCount = 1) := by
  exact ⟨rfl, rfl⟩

/-- C7 amended: the retry counter is reset to zero by every successful
save (while the hook is mounted); a change of the active document
identity, by contrast, clears the pending queue and leaves the retry
counter untouched. -/
theorem C7_retry_reset {α : Type} (s : AState α) (p : String) (c : Content α)
    (np : Option String) :
    (s.isMounted = true → s.inFlight = [Susp.apiCall p c] →
      (apiSuccess s).retryCount = 0)
    ∧ (step s (AEvent.switchTo np)).retryCount = s.retryCount
    ∧ (step s (AEvent.switchTo np)).saveQueue = [] := by
  refine ⟨?_, rfl, rfl⟩
  intro hm hf
  simp [apiSuccess, hf, hm, finallyDrain_retryCount]

/-- Concrete hook state used to witness `C7_retry_reset`: mounted, one
save in flight, retry counter at 2. -/
def C7state : AState String :=
  { postId := some "p1", isSaving := true, saveQueue := [], retryCount := 2,
    status := SaveStatus.saving, errorMsg := none, lastSaved := 0,
    isMounted := true, inFlight := [Susp.apiCall "p1" ⟨some "p1", "x"⟩],
    retryTimers := [], apiLog := [] }

theorem C7_retry_reset_witness :
    (apiSuccess C7state).retryCount = 0
    ∧ (step C7state (AEvent.switchTo (some "p2"))).retryCount = C7state.retryCount
    ∧ (step C7state (AEvent.switchTo (some "p2"))).saveQueue = [] :=
  ⟨(C7_retry_reset C7state "p1" ⟨some "p1", "x"⟩ (some "p2")).1 rfl rfl,
   (C7_retry_reset C7state "p1" ⟨some "p1", "x"⟩ (some "p2")).2.1,
   (C7_retry_reset C7state "p1" ⟨some "p1", "x"⟩ (some "p2")).2.2⟩

/-! ## C10 — payloads without a `postId` field skip the guard -/

/-- C10: a payload whose `postId` field is absent (or falsy) skips the
cross-post identity check entirely: when no save is in flight, the
persistence call is made immediately against whatever `postId` is
currently bound, and the body sent is the payload with the `postId` field
stripped (`contentForAPI`). -/
theorem C10_no_pid_skips_guard {α : Type} (s : AState α) (p : String)
    (c : Content α) (h1 : s.postId = some p) (h2 : s.isSaving = false)
    (h3 : s.retryCount = 0) (h4 : c.pid = none) :
    (step s (AEvent.submit c)).apiLog
      = s.apiLog ++ [⟨p, contentForAPI c, none⟩] := by
  simp [step, h1, saveContent, h2, pidMismatch, h4, h3, contentForAPI]

theorem C10_no_pid_skips_guard_witness :
    (step (initState (some "p1") : AState String)
        (AEvent.submit ⟨none, "body"⟩)).apiLog
      = (initState (some "p1") : AState String).apiLog
          ++ [⟨"p1", contentForAPI ⟨none, "body"⟩, none⟩] :=
  C10_no_pid_skips_guard (initState (some "p1")) "p1" ⟨none, "body"⟩ rfl rfl rfl rfl

/-! ## C2 amended — in-flight exclusivity as a reachability invariant -/

/-- Helper: a pointwise property survives appending one element. -/
theorem forall_mem_append_singleton {γ : Type} (P : γ → Prop) (l : List γ)
    (a : γ) (hl : ∀ x ∈ l, P x) (ha : P a) : ∀ x ∈ l ++ [a], P x := by
  intro x hx
  rcases List.mem_append.1 hx with hx | hx
  · exact hl x hx
  · rw [List.mem_singleton.1 hx]; exact ha

/-- The serialization invariant: when `isSaving` is clear nothing is
suspended, and there is never more than one suspended `saveContent`
execution (hence never more than one persistence call pending). -/
def ExclusiveInFlight {α : Type} (s : AState α) : Prop :=
  (s.isSaving = false → s.inFlight = []) ∧ s.inFlight.length ≤ 1

theorem exclusive_saveContent {α : Type} (pid : Option String) (c : Content α)
    (s : AState α) (h : ExclusiveInFlight s) :
    ExclusiveInFlight (saveContent pid c s) := by
  obtain ⟨h1, h2⟩ := h
  unfold saveContent
  split
  · exact ⟨h1, h2⟩
  · rename_i p
    split
    · exact ⟨h1, h2⟩
    · rename_i hs
      split
      · exact ⟨h1, h2⟩
      · have hs' : s.isSaving = false := by
          revert hs; cases s.isSaving <;> simp
        have hin : s.inFlight = [] := h1 hs'
        dsimp only
        split
        · exact ⟨fun hh => by simp at hh, by simp [hin]⟩
        · exact ⟨fun hh => by simp at hh, by simp [hin]⟩

theorem exclusive_finallyDrain {α : Type} (p : String) (s : AState α)
    (h : s.inFlight = []) : ExclusiveInFlight (finallyDrain p s) := by
  unfold finallyDrain
  dsimp only
  cases hq : s.saveQueue.getLast? with
  | none => exact ⟨fun _ => h, by simp [h]⟩
  | some next => exact exclusive_saveContent _ _ _ ⟨fun _ => h, by simp [h]⟩

theorem exclusive_step {α : Type} (s : AState α) (e : AEvent α)
    (h : ExclusiveInFlight s) : ExclusiveInFlight (step s e) := by
  obtain ⟨h1, h2⟩ := h
  cases e with
  | submit c => exact exclusive_saveContent _ _ _ ⟨h1, h2⟩
  | apiOk =>
    show ExclusiveInFlight (apiSuccess s)
    unfold apiSuccess
    cases hf : s.inFlight with
    | nil => exact ⟨h1, h2⟩
    | cons x rest =>
      have hrest : rest = [] := by
        rw [hf] at h2; simpa using h2
      subst hrest
      cases x with
      | backoff p c d => exact ⟨h1, h2⟩
      | apiCall p c =>
        refine exclusive_finallyDrain p _ ?_
        by_cases hm : s.isMounted = true <;> simp [hm]
  | apiErr m =>
    show ExclusiveInFlight (apiFailure m s)
    unfold apiFailure
    cases hf : s.inFlight with
    | nil => exact ⟨h1, h2⟩
    | cons x rest =>
      have hrest : rest = [] := by
        rw [hf] at h2; simpa using h2
      subst hrest
      cases x with
      | backoff p c d => exact ⟨h1, h2⟩
      | apiCall p c =>
        refine exclusive_finallyDrain p _ ?_
        by_cases hr : s.retryCount < maxRetries <;>
          by_cases hm : s.isMounted = true <;> simp [hr, hm]
  | backoffDone =>
    show ExclusiveInFlight (backoffElapsed s)
    unfold backoffElapsed
    cases hf : s.inFlight with
    | nil => exact ⟨h1, h2⟩
    | cons x rest =>
      have hrest : rest = [] := by
        rw [hf] at h2; simpa using h2
      subst hrest
      cases x with
      | apiCall p c => exact ⟨h1, h2⟩
      | backoff p c d =>
        refine ⟨fun hh => ?_, by simp⟩
        exact absurd ((hf.symm.trans (h1 hh)).symm) (by simp)
  | retryFire =>
    show ExclusiveInFlight (retryTimerFire s)
    unfold retryTimerFire
    cases ht : s.retryTimers with
    | nil => exact ⟨h1, h2⟩
    | cons t rest => exact exclusive_saveContent _ _ _ ⟨h1, h2⟩
  | switchTo np => exact ⟨h1, h2⟩
  | unmount => exact ⟨h1, h2⟩

theorem exclusive_run {α : Type} (es : List (AEvent α)) :
    ∀ s : AState α, ExclusiveInFlight s → ExclusiveInFlight (run s es) := by
  induction es with
  | nil => intro s h; exact h
  | cons e rest ih => intro s h; exact ih _ (exclusive_step s e h)

/-- C2 amended: for every interleaving of submissions, retries, backoffs,
completions, switches and unmounts, the hook never has two persistence
calls (or backoff sleeps) in flight at once — the `isSaving` flag
serializes executions.  (The original claim's second half is refuted
separately: a queued request does begin execution while a retry is still
scheduled.) -/
theorem C2_inflight_exclusive {α : Type} (pid : Option String)
    (es : List (AEvent α)) :
    (run (initState pid) es).inFlight.length ≤ 1 :=
  (exclusive_run es (initState pid) ⟨fun _ => rfl, by simp [initState]⟩).2

/-! ## C6 — the cross-document guard -/

/-- The payload's `postId` field, when present, agrees with `p`. -/
def cPidOk {α : Type} (p : String) (c : Content α) : Bool :=
  match c.pid with
  | none => true
  | some q => q == p

/-- A suspension's content agrees with the `postId` it will be (or was)
sent to. -/
def suspPidOk {α : Type} : Susp α → Bool
  | Susp.backoff p c _ => cPidOk p c
  | Susp.apiCall p c => cPidOk p c

/-- A logged persistence call whose source payload carried a `postId`
carried the very `postId` the call was made against. -/
def recPidOk {α : Type} (r : ApiRecord α) : Bool :=
  match r.srcPid with
  | none => true
  | some q => q == r.target

/-- The guard invariant: every persistence call ever made, and every
pending suspension, is for a payload whose `postId` field (when present)
matches the target document. -/
def GuardInv {α : Type} (s : AState α) : Prop :=
  (∀ r ∈ s.apiLog, recPidOk r = true) ∧ (∀ x ∈ s.inFlight, suspPidOk x = true)

theorem cPidOk_of_not_mismatch {α : Type} (c : Content α) (p : String)
    (h : ¬ pidMismatch c p = true) : cPidOk p c = true := by
  unfold pidMismatch at h
  unfold cPidOk
  cases hp : c.pid with
  | none => rfl
  | some q => rw [hp] at h; simpa [bne] using h

theorem recPidOk_mk {α : Type} (p : String) (b : α) (c : Content α) :
    recPidOk ⟨p, b, c.pid⟩ = cPidOk p c := by
  unfold recPidOk cPidOk
  cases c.pid <;> rfl

theorem guard_saveContent {α : Type} (pid : Option String) (c : Content α)
    (s : AState α) (h : GuardInv s) : GuardInv (saveContent pid c s) := by
  obtain ⟨h1, h2⟩ := h
  unfold saveContent
  split
  · exact ⟨h1, h2⟩
  · rename_i p
    split
    · exact ⟨h1, h2⟩
    · split
      · exact ⟨h1, h2⟩
      · rename_i hm
        have hok : cPidOk p c = true := cPidOk_of_not_mismatch c p hm
        dsimp only
        split
        · refine ⟨h1, ?_⟩
          exact forall_mem_append_singleton _ _ _ h2
            (by simpa [suspPidOk] using hok)
        · refine ⟨?_, ?_⟩
          · exact forall_mem_append_singleton _ _ _ h1
              (by rw [recPidOk_mk]; exact hok)
          · exact forall_mem_append_singleton _ _ _ h2
              (by simpa [suspPidOk] using hok)

theorem guard_finallyDrain {α : Type} (p : String) (s : AState α)
    (h : GuardInv s) : GuardInv (finallyDrain p s) := by
  unfold finallyDrain
  dsimp only
  cases hq : s.saveQueue.getLast? with
  | none => exact ⟨h.1, h.2⟩
  | some next => exact guard_saveContent _ _ _ ⟨h.1, h.2⟩

theorem guard_step {α : Type} (s : AState α) (e : AEvent α)
    (h : GuardInv s) : GuardInv (step s e) := by
  obtain ⟨h1, h2⟩ := h
  cases e with
  | submit c => exact guard_saveContent _ _ _ ⟨h1, h2⟩
  | apiOk =>
    show GuardInv (apiSuccess s)
    unfold apiSuccess
    cases hf : s.inFlight with
    | nil => exact ⟨h1, h2⟩
    | cons x rest =>
      have htail : ∀ y ∈ rest, suspPidOk y = true := by
        intro y hy
        exact h2 y (by rw [hf]; exact List.mem_cons_of_mem _ hy)
      cases x with
      | backoff p c d => exact ⟨h1, h2⟩
      | apiCall p c =>
        refine guard_finallyDrain p _ ?_
        by_cases hm : s.isMounted = true <;>
          simp only [hm, Bool.false_eq_true, if_true, if_false] <;>
          exact ⟨h1, htail⟩
  | apiErr m =>
    show GuardInv (apiFailure m s)
    unfold apiFailure
    cases hf : s.inFlight with
    | nil => exact ⟨h1, h2⟩
    | cons x rest =>
      have htail : ∀ y ∈ rest, suspPidOk y = true := by
        intro y hy
        exact h2 y (by rw [hf]; exact List.mem_cons_of_mem _ hy)
      cases x with
      | backoff p c d => exact ⟨h1, h2⟩
      | apiCall p c =>
        refine guard_finallyDrain p _ ?_
        by_cases hr : s.retryCount < maxRetries <;>
          by_cases hm : s.isMounted = true <;>
          simp only [hr, hm, Bool.false_eq_true, if_true, if_false] <;>
          exact ⟨h1, htail⟩
  | backoffDone =>
    show GuardInv (backoffElapsed s)
    unfold backoffElapsed
    cases hf : s.inFlight with
    | nil => exact ⟨h1, h2⟩
    | cons x rest =>
      have htail : ∀ y ∈ rest, suspPidOk y = true := by
        intro y hy
        exact h2 y (by rw [hf]; exact List.mem_cons_of_mem _ hy)
      cases x with
      | apiCall p c => exact ⟨h1, h2⟩
      | backoff p c d =>
        have hhead : cPidOk p c = true := by
          have hx := h2 (Susp.backoff p c d) (by rw [hf]; exact List.mem_cons_self _ _)
          simpa [suspPidOk] using hx
        refine ⟨?_, ?_⟩
        · exact forall_mem_append_singleton _ _ _ h1
            (by rw [recPidOk_mk]; exact hhead)
        · exact forall_mem_append_singleton _ _ _ htail
            (by simpa [suspPidOk] using hhead)
  | retryFire =>
    show GuardInv (retryTimerFire s)
    unfold retryTimerFire
    cases ht : s.retryTimers with
    | nil => exact ⟨h1, h2⟩
    | cons t rest => exact guard_saveContent _ _ _ ⟨h1, h2⟩
  | switchTo np => exact ⟨h1, h2⟩
  | unmount => exact ⟨h1, h2⟩

theorem guard_run {α : Type} (es : List (AEvent α)) :
    ∀ s : AState α, GuardInv s → GuardInv (run s es) := by
  induction es with
  | nil => intro s h; exact h
  | cons e rest ih => intro s h; exact ih _ (guard_step s e h)

/-- C6 counterexample: the guard compares against the closure-captured
`postId`, not the session's *current* one, so a request identified with a
previous document is not always dropped.  Run: a save for `p1` fails and
schedules its 1000 ms retry; the active document then switches to `p2`;
the stale retry closure fires and, after its backoff, `postsAPI.update`
is invoked a second time for the `p1`-identified request — while the
session's current active document is `p2`.  The call targets `p1`, the
request's own document, not `p2`. -/
theorem C6_counterexample :
    ((run (initState (some "p1"))
        [AEvent.submit ⟨some "p1", "x"⟩, AEvent.apiErr "e",
         AEvent.switchTo (some "p2")]).postId = some "p2")
    ∧ ((run (initState (some "p1"))
        [AEvent.submit ⟨some "p1", "x"⟩, AEvent.apiErr "e",
         AEvent.switchTo (some "p2")]).apiLog
      = [⟨"p1", "x", some "p1"⟩])
    ∧ ((run (initState (some "p1"))
        [AEvent.submit ⟨some "p1", "x"⟩, AEvent.apiErr "e",
         AEvent.switchTo (some "p2"), AEvent.retryFire,
         AEvent.backoffDone]).postId = some "p2")
    ∧ ((run (initState (some "p1"))
        [AEvent.submit ⟨some "p1", "x"⟩, AEvent.apiErr "e",
         AEvent.switchTo (some "p2"), AEvent.retryFire,
         AEvent.backoffDone]).apiLog
      = [⟨"p1", "x", some "p1"⟩, ⟨"p1", "x", some "p1"⟩]) := by
  exact ⟨rfl, rfl, rfl, rfl⟩

/-- C6 amended: along every interleaving of events, every persistence
call the hook ever makes is for a payload whose `postId` field — when it
carries one — equals the document the call targets, so a save can never
write under a different document's identity than its payload names, and
in particular never under a newly active document's identity.  (A request
identified with a previous document is, however, not always dropped: a
stale retry or drain closure can still execute it after a switch,
persisting to its own previous document — refuted separately.) -/
theorem C6_cross_document_guard {α : Type} (pid : Option String)
    (es : List (AEvent α)) :
    ((run (initState pid) es).apiLog).all recPidOk = true := by
  have h := (guard_run es (initState pid)
    ⟨by simp [initState], by simp [initState]⟩).1
  simpa [List.all_eq_true] using h

/-! ## C8 — debounce collapse -/

theorem drun_cons {β : Type} (s : DebounceState β) (e : DEvent β)
    (es : List (DEvent β)) : drun s (e :: es) = drun (dstep s e) es := rfl

theorem drun_append {β : Type} (s : DebounceState β) (es es' : List (DEvent β)) :
    drun s (es ++ es') = drun (drun s es) es' := by
  simp [drun, List.foldl_append]

/-- Folding a burst of invocations whose times all stay below the first
deadline: no timer ever fires, and afterwards the pending timer carries
the last invocation's deadline and arguments. -/
theorem drun_invoke_burst {β : Type} (D t1 : Nat) (l : List (Nat × β)) :
    ∀ (s : DebounceState β) (tc : Nat) (ac : β),
      s.wait = D → s.timeoutId = some (tc + D, ac) → t1 ≤ tc →
      (∀ p ∈ l, t1 ≤ p.1 ∧ p.1 < t1 + D) →
      ∃ q : Nat × β,
        ((tc, ac) :: l).getLast? = some q ∧ t1 ≤ q.1 ∧
        (drun s (l.map fun p => DEvent.invoke p.1 p.2)).timeoutId
          = some (q.1 + D, q.2) ∧
        (drun s (l.map fun p => DEvent.invoke p.1 p.2)).fired = s.fired := by
  induction l with
  | nil =>
    intro s tc ac hw ht hle _
    exact ⟨(tc, ac), rfl, hle, by simpa [drun] using ht, rfl⟩
  | cons p rest ih =>
    intro s tc ac hw ht hle hall
    have hp := hall p (List.mem_cons_self _ _)
    have hnofire : ¬ (tc + D ≤ p.1) := by
      have h1 : p.1 < t1 + D := hp.2
      omega
    have hstep : dstep s (DEvent.invoke p.1 p.2)
        = { s with now := p.1, timeoutId := some (p.1 + D, p.2) } := by
      simp [dstep, debouncedCall, advanceTo, ht, hnofire, hw]
    rw [List.map_cons, drun_cons, hstep]
    obtain ⟨q, hq1, hq2, hq3, hq4⟩ :=
      ih { s with now := p.1, timeoutId := some (p.1 + D, p.2) } p.1 p.2
        hw rfl hp.1 (fun x hx => hall x (List.mem_cons_of_mem _ hx))
    exact ⟨q, by rw [List.getLast?_cons_cons]; exact hq1, hq2, hq3, hq4⟩

/-- C8: invoking the debounced closure `N ≥ 1` times — a first call at
`t1` followed by further calls all landing inside the window
`[t1, t1 + D)` — and then staying quiet past the last call's deadline
yields exactly one execution of the wrapped callback, with the arguments
of the last invocation. -/
theorem C8_debounce_collapse {β : Type} (D t1 : Nat) (a1 : β)
    (l : List (Nat × β)) (T tl : Nat) (al : β)
    (hall : ∀ p ∈ l, t1 ≤ p.1 ∧ p.1 < t1 + D)
    (hlast : ((t1, a1) :: l).getLast? = some (tl, al))
    (hT : tl + D ≤ T) :
    (drun (dInit D)
      (DEvent.invoke t1 a1 ::
        ((l.map fun p => DEvent.invoke p.1 p.2) ++ [DEvent.quiet T]))).fired
      = [al] := by
  rw [drun_cons, drun_append]
  have hstep : dstep (dInit D : DebounceState β) (DEvent.invoke t1 a1)
      = { now := t1, wait := D, timeoutId := some (t1 + D, a1), fired := [] } := by
    simp [dstep, dInit, advanceTo, debouncedCall]
  rw [hstep]
  obtain ⟨q, hq1, hq2, hq3, hq4⟩ :=
    drun_invoke_burst D t1 l
      { now := t1, wait := D, timeoutId := some (t1 + D, a1), fired := [] }
      t1 a1 rfl rfl le_rfl hall
  rw [hlast, Option.some_inj] at hq1
  subst hq1
  rw [drun_cons]
  simp only [drun] at hq3 hq4 ⊢
  simp only [List.foldl_nil]
  dsimp only [dstep]
  unfold advanceTo
  rw [hq3]
  simp [hT, hq4]

theorem C8_debounce_collapse_witness :
    (drun (dInit 100)
      (DEvent.invoke 0 "x" ::
        (([(10, "y"), (20, "z")].map fun p => DEvent.invoke p.1 p.2)
          ++ [DEvent.quiet 200]))).fired = ["z"] :=
  C8_debounce_collapse 100 0 "x" [(10, "y"), (20, "z")] 200 20 "z"
    (by decide) rfl (by decide)

/-! ## C9 — debounce cancellation -/

/-- C9: `cancel()` called before the delay elapses results in zero
executions of the wrapped callback even after arbitrary further quiet
time; `cancel()` is idempotent; and `cancel()` is a no-op when no timer is
pending. -/
theorem C9_cancel {β : Type} :
    (∀ (D t1 t2 T : Nat) (a : β), t2 < t1 + D →
      (drun (dInit D)
        [DEvent.invoke t1 a, DEvent.cancelAt t2, DEvent.quiet T]).fired = [])
    ∧ (∀ s : DebounceState β,
        debouncedCancel (debouncedCancel s) = debouncedCancel s)
    ∧ (∀ s : DebounceState β, s.timeoutId = none → debouncedCancel s = s) := by
  refine ⟨?_, ?_, ?_⟩
  · intro D t1 t2 T a h
    have hnofire : ¬ (t1 + D ≤ t2) := by omega
    simp [drun, dstep, dInit, advanceTo, debouncedCall, debouncedCancel, hnofire]
  · intro s
    unfold debouncedCancel
    cases h : s.timeoutId with
    | none => rw [h]
    | some v => rfl
  · intro s h
    unfold debouncedCancel
    rw [h]

theorem C9_cancel_witness :
    ((drun (dInit 100)
        [DEvent.invoke 0 "x", DEvent.cancelAt 50, DEvent.quiet 500]).fired
      = ([] : List String))
    ∧ debouncedCancel (debouncedCancel (dInit 100 : DebounceState String))
        = debouncedCancel (dInit 100 : DebounceState String)
    ∧ debouncedCancel (dInit 100 : DebounceState String)
        = (dInit 100 : DebounceState String) :=
  ⟨(C9_cancel (β := String)).1 100 0 50 500 "x" (by decide),
   (C9_cancel (β := String)).2.1 (dInit 100),
   (C9_cancel (β := String)).2.2 (dInit 100) rfl⟩

end SmartBlog
